import Mathlib

/-!
Verification of the AMRS-BETA1 mean-reversion backtesting engine
(`src/core/setup_detector.py` and `src/atrOptimizer.py`) against its
natural-language specification.

Embedding conventions:
* A pandas DataFrame row becomes a `Candle` record; the frame becomes a
  `List Candle`.  Prices, indicator values and ratios are `ℚ` (the Python
  code uses binary floats; all claims here concern order comparisons and
  exact arithmetic identities, for which exact rationals are the honest
  shallow embedding).  Timestamps are `ℤ` (the code only ever compares
  them and subtracts day counts).
* Python `round(x, n)` is round-half-to-even at `n` decimal digits
  (`roundTo` below), which is Python's documented rounding mode.
* Fallible row access (`df.iloc[i]`, which raises `IndexError`) becomes
  `Option`-valued access via `l[i]?`; `create_setup` is accordingly
  `Option`-valued.  Rational division by zero is total in Lean (`x / 0 = 0`)
  where Python would raise `ZeroDivisionError`; no claim below depends on
  that corner.
* Python's `float('inf')` profit factor is modelled with `WithTop ℚ`
  (`⊤` = `+∞`).
-/

namespace AMRS

/-- One row of the processed dataframe: OHLC extremes plus the indicator
and band columns read by `setup_detector.py` and `atrOptimizer.py`. -/
structure Candle where
  datetime : ℤ
  low : ℚ
  high : ℚ
  ema20 : ℚ
  atr : ℚ
  atr_lower_entry : ℚ
  atr_upper_entry : ℚ
  atr_lower_3 : ℚ
  atr_upper_3 : ℚ
  adx : ℚ
  plus_di : ℚ
  minus_di : ℚ
  rsi : ℚ
deriving DecidableEq

/-- Trade direction (`'LONG'` / `'SHORT'` strings in the source). -/
inductive Direction where
  | LONG
  | SHORT
deriving DecidableEq

/-- Trade outcome (`'WIN'` / `'LOSS'` / `'OPEN'` strings in the source). -/
inductive Outcome where
  | WIN
  | LOSS
  | OPEN
deriving DecidableEq

/-- Detector parameters (`SetupDetector.__init__`). -/
structure DetectorConfig where
  min_candles_away : ℕ
  use_di_filter : Bool
  di_spread_max : ℚ
deriving DecidableEq

/-- Python `round` to an integer: round half to even. -/
def pyRoundInt (q : ℚ) : ℤ :=
  let f := ⌊q⌋
  let r := q - (f : ℚ)
  if r < 1/2 then f
  else if 1/2 < r then f + 1
  else if f % 2 = 0 then f else f + 1

/-- Python `round(q, n)`: round half to even at `n` decimal digits. -/
def roundTo (n : ℕ) (q : ℚ) : ℚ :=
  (pyRoundInt (q * 10 ^ n) : ℚ) / 10 ^ n

/-- The moving-average-touch condition `low <= ema20 <= high`
(`SetupDetector.detect_ema_touches`, also reused verbatim as the re-touch
test in `verify_price_moved_away` / `detect_entry_at_atr_level` and as the
take-profit condition in `simulate_trade_outcome`). -/
def ema_touch (c : Candle) : Bool :=
  c.low ≤ c.ema20 && c.ema20 ≤ c.high

/-- Per-bar touch flags (`SetupDetector.detect_ema_touches`). -/
def detect_ema_touches (df : List Candle) : List Bool :=
  df.map ema_touch

/-- Loop body of `SetupDetector.verify_price_moved_away`: walk the bars
after the touch carrying the `candles_away` counter. -/
def verifyGo (minAway : ℕ) : List Candle → ℕ → Bool × ℕ
  | [], ca => (true, ca)
  | c :: rest, ca =>
    if ema_touch c then (false, ca)
    else if minAway ≤ ca + 1 then (true, ca + 1)
    else verifyGo minAway rest (ca + 1)

/-- `SetupDetector.verify_price_moved_away`: after a touch, require the
price to stay off the EMA; returns `(is_valid, candles_away)`. -/
def verify_price_moved_away (cfg : DetectorConfig) (df : List Candle)
    (touch_idx : ℕ) : Bool × ℕ :=
  verifyGo cfg.min_candles_away (df.drop (touch_idx + 1)) 0

/-- `SetupDetector.check_di_spread_filter`: passes when the filter is off
or `|plus_di - minus_di| < di_spread_max`. -/
def check_di_spread_filter (cfg : DetectorConfig) (c : Candle) : Bool :=
  if cfg.use_di_filter then |c.plus_di - c.minus_di| < cfg.di_spread_max
  else true

/-- The ATR-band entry condition per direction
(`detect_entry_at_atr_level`, lines 63-68). -/
def entry_cond (dir : Direction) (c : Candle) : Bool :=
  match dir with
  | .LONG => c.low ≤ c.atr_lower_entry
  | .SHORT => c.atr_upper_entry ≤ c.high

/-- Loop body of `SetupDetector.detect_entry_at_atr_level`, scanning bars
at absolute index `i` onward: a re-touch cancels the search, a failed DI
filter skips the bar, and otherwise the first band breach is the entry. -/
def entryScanGo (cfg : DetectorConfig) (dir : Direction) :
    List Candle → ℕ → Option ℕ
  | [], _ => none
  | c :: rest, i =>
    if ema_touch c then none
    else if !check_di_spread_filter cfg c then entryScanGo cfg dir rest (i + 1)
    else if entry_cond dir c then some i
    else entryScanGo cfg dir rest (i + 1)

/-- `SetupDetector.detect_entry_at_atr_level`: scan from
`touch_idx + min_candles_away` (or the next bar when that offset is zero)
for the first qualifying entry bar.  Python's `(found, idx)` pair becomes
`Option ℕ`. -/
def detect_entry_at_atr_level (cfg : DetectorConfig) (df : List Candle)
    (touch_idx : ℕ) (dir : Direction) : Option ℕ :=
  let s := touch_idx + cfg.min_candles_away
  let s' := if s = touch_idx then s + 1 else s
  entryScanGo cfg dir (df.drop s') s'

/-- Result record of `simulate_trade_outcome`. -/
structure TradeResult where
  outcome : Outcome
  exit_date : Option ℤ
  exit_price : Option ℚ
  pips : ℚ
  candles_held : ℤ
deriving DecidableEq

/-- The stop-loss condition per direction (`simulate_trade_outcome`,
lines 79 and 99): `LONG` stops when `low <= sl_price`, `SHORT` when
`high >= sl_price`. -/
def sl_hit (dir : Direction) (sl_price : ℚ) (c : Candle) : Bool :=
  match dir with
  | .LONG => c.low ≤ sl_price
  | .SHORT => sl_price ≤ c.high

/-- Loop body of `SetupDetector.simulate_trade_outcome`: at each bar from
the entry onward, the stop-loss test runs first, then the EMA-touch
take-profit test; `i` is the absolute index of the current bar and
`total` the length of the dataframe (for the `OPEN` case's
`candles_held = len(df) - entry_idx`). -/
def simulateGo (dir : Direction) (entry_price sl_price : ℚ)
    (entry_idx total : ℕ) : List Candle → ℕ → TradeResult
  | [], _ =>
    { outcome := .OPEN, exit_date := none, exit_price := none, pips := 0,
      candles_held := (total : ℤ) - (entry_idx : ℤ) }
  | c :: rest, i =>
    if sl_hit dir sl_price c then
      { outcome := .LOSS, exit_date := some c.datetime,
        exit_price := some sl_price,
        pips := roundTo 1 ((match dir with
          | .LONG => sl_price - entry_price
          | .SHORT => entry_price - sl_price) * 10000),
        candles_held := (i : ℤ) - (entry_idx : ℤ) }
    else if ema_touch c then
      { outcome := .WIN, exit_date := some c.datetime,
        exit_price := some c.ema20,
        pips := roundTo 1 ((match dir with
          | .LONG => c.ema20 - entry_price
          | .SHORT => entry_price - c.ema20) * 10000),
        candles_held := (i : ℤ) - (entry_idx : ℤ) }
    else simulateGo dir entry_price sl_price entry_idx total rest (i + 1)

/-- `SetupDetector.simulate_trade_outcome`: forward scan starting at the
entry bar itself.  The `tp_ema_ref` argument is accepted but, as in the
source, never read (the take-profit test uses each bar's own `ema20`). -/
def simulate_trade_outcome (df : List Candle) (entry_idx : ℕ)
    (dir : Direction) (entry_price sl_price tp_ema_ref : ℚ) : TradeResult :=
  simulateGo dir entry_price sl_price entry_idx df.length
    (df.drop entry_idx) entry_idx

/-- One output trade record (the dict built by `create_setup`). -/
structure Setup where
  touch_date : ℤ
  entry_date : ℤ
  exit_date : Option ℤ
  direction : Direction
  entry_price : ℚ
  sl_price : ℚ
  tp_price_ref : ℚ
  exit_price : Option ℚ
  sl_pips : ℚ
  tp_pips_estimated : ℚ
  result_pips : ℚ
  rr_ratio_estimated : ℚ
  rr_ratio_real : Option ℚ
  outcome : Outcome
  candles_away : ℤ
  candles_held : ℤ
  adx : ℚ
  plus_di : ℚ
  minus_di : ℚ
  rsi : ℚ
  atr : ℚ
deriving DecidableEq

/-- The entry price `create_setup` reads off the entry bar
(`atr_lower_entry` for `LONG`, `atr_upper_entry` for `SHORT`). -/
def entry_price_of (dir : Direction) (ec : Candle) : ℚ :=
  match dir with
  | .LONG => ec.atr_lower_entry
  | .SHORT => ec.atr_upper_entry

/-- The stop price `create_setup` reads off the entry bar
(`atr_lower_3` for `LONG`, `atr_upper_3` for `SHORT`). -/
def sl_price_of (dir : Direction) (ec : Candle) : ℚ :=
  match dir with
  | .LONG => ec.atr_lower_3
  | .SHORT => ec.atr_upper_3

/-- The simulation `create_setup` runs for an entry bar `ec` at index
`entry_idx`. -/
def tradeOf (df : List Candle) (entry_idx : ℕ) (dir : Direction)
    (ec : Candle) : TradeResult :=
  simulate_trade_outcome df entry_idx dir (entry_price_of dir ec)
    (sl_price_of dir ec) ec.ema20

/-- The unrounded realized reward:risk quantity of `create_setup`
line 149: `abs(pips) / (sl_distance * 10000)`. -/
def realizedRatio (df : List Candle) (entry_idx : ℕ) (dir : Direction)
    (ec : Candle) : ℚ :=
  |(tradeOf df entry_idx dir ec).pips| /
    (|entry_price_of dir ec - sl_price_of dir ec| * 10000)

/-- `SetupDetector.create_setup`: assemble the trade record for a
touch/entry pair.  `Option`-valued because `df.iloc` on a bad index
raises.  Python truthiness on line 161 (`... if trade_result['exit_price']
else None`) and line 166 (`... if rr_ratio_real else None`) maps `None`
and `0.0` alike to `none`, hence the explicit zero tests. -/
def create_setup (df : List Candle) (touch_idx entry_idx : ℕ)
    (dir : Direction) : Option Setup :=
  match df[entry_idx]?, df[touch_idx]? with
  | some ec, some tc =>
    let entry_price := entry_price_of dir ec
    let sl_price := sl_price_of dir ec
    let tp_price_ref := ec.ema20
    let sl_distance := |entry_price - sl_price|
    let tp_distance_estimated := |entry_price - tp_price_ref|
    let rr_ratio_estimated :=
      if 0 < sl_distance then tp_distance_estimated / sl_distance else 0
    let tr := tradeOf df entry_idx dir ec
    let rr_ratio_real : Option ℚ :=
      if tr.outcome = .WIN ∨ tr.outcome = .LOSS then
        some (realizedRatio df entry_idx dir ec)
      else none
    some {
      touch_date := tc.datetime
      entry_date := ec.datetime
      exit_date := tr.exit_date
      direction := dir
      entry_price := roundTo 5 entry_price
      sl_price := roundTo 5 sl_price
      tp_price_ref := roundTo 5 tp_price_ref
      exit_price := match tr.exit_price with
        | none => none
        | some p => if p = 0 then none else some (roundTo 5 p)
      sl_pips := roundTo 1 (sl_distance * 10000)
      tp_pips_estimated := roundTo 1 (tp_distance_estimated * 10000)
      result_pips := tr.pips
      rr_ratio_estimated := roundTo 2 rr_ratio_estimated
      rr_ratio_real := match rr_ratio_real with
        | none => none
        | some r => if r = 0 then none else some (roundTo 2 r)
      outcome := tr.outcome
      candles_away := (entry_idx : ℤ) - (touch_idx : ℤ)
      candles_held := tr.candles_held
      adx := roundTo 2 ec.adx
      plus_di := roundTo 2 ec.plus_di
      minus_di := roundTo 2 ec.minus_di
      rsi := roundTo 2 ec.rsi
      atr := roundTo 5 ec.atr }
  | _, _ => none

/-- The analysis-window membership test used by `detect_all_setups` both
to filter `df_analysis` and to gate each entry date (`not start_date or
t >= start_date` and `not end_date or t <= end_date`). -/
def window_ok (sd ed : Option ℤ) (t : ℤ) : Bool :=
  (match sd with | none => true | some s => s ≤ t) &&
  (match ed with | none => true | some e => t ≤ e)

/-- The drift-validation gate of `detect_all_setups` (lines 204-207): when
`min_candles_away > 0`, a touch is processed only if
`verify_price_moved_away` returned valid *and* `candles_away` reached
`min_candles_away` (`if not is_valid or candles_away < min: continue`). -/
def drift_gate (cfg : DetectorConfig) (df : List Candle)
    (touch_idx : ℕ) : Bool :=
  if 0 < cfg.min_candles_away then
    let r := verify_price_moved_away cfg df touch_idx
    r.1 && decide (cfg.min_candles_away ≤ r.2)
  else true

/-- One direction's contribution for a touch in `detect_all_setups`
(lines 209-223): run the entry scan; if an entry is found and its bar's
timestamp lies in the window, create and emit the setup. -/
def setupsForDir (cfg : DetectorConfig) (df : List Candle)
    (sd ed : Option ℤ) (touch_idx : ℕ) (dir : Direction) : List Setup :=
  match detect_entry_at_atr_level cfg df touch_idx dir with
  | none => []
  | some entry_idx =>
    match df[entry_idx]? with
    | none => []
    | some ec =>
      if window_ok sd ed ec.datetime then
        (create_setup df touch_idx entry_idx dir).toList
      else []

/-- Per-touch-date body of `detect_all_setups`' main loop: locate the
touch row in the full frame by timestamp (`matches[0]`; absent match is
skipped), apply the drift gate, then emit the `LONG` and `SHORT`
contributions in that order. -/
def processTouchDate (cfg : DetectorConfig) (df : List Candle)
    (sd ed : Option ℤ) (td : ℤ) : List Setup :=
  match df.findIdx? (fun c => c.datetime == td) with
  | none => []
  | some touch_idx =>
    if drift_gate cfg df touch_idx then
      setupsForDir cfg df sd ed touch_idx .LONG ++
        setupsForDir cfg df sd ed touch_idx .SHORT
    else []

/-- `SetupDetector.detect_all_setups`: filter the frame to the analysis
window, collect the touch dates there, and process each against the full
frame; the console printing of the source is dropped. -/
def detect_all_setups (cfg : DetectorConfig) (df : List Candle)
    (sd ed : Option ℤ) : List Setup :=
  let df_analysis := df.filter (fun c => window_ok sd ed c.datetime)
  let touch_dates := (df_analysis.filter ema_touch).map (fun c => c.datetime)
  (touch_dates.map (processTouchDate cfg df sd ed)).flatten

/-- One row of metrics for a tested entry multiplier
(`analyze_atr_level`'s returned dict).  `profit_factor` lives in
`WithTop ℚ`, with `⊤` standing for Python's `float('inf')`. -/
structure SweepMetrics where
  atr_level : ℚ
  total_trades : ℕ
  win_trades : ℕ
  loss_trades : ℕ
  win_rate : ℚ
  avg_win_pips : ℚ
  avg_loss_pips : ℚ
  total_pips : ℚ
  expectancy : ℚ
  profit_factor : WithTop ℚ
  trades_per_year : ℚ
  max_drawdown : ℚ
deriving DecidableEq

/-- `recalculate_atr_bands`: rebuild the entry bands from the swept
multiplier and the stop bands from the fixed multiplier
`BASE_PARAMS['atr_stop_multiplier'] = 3.0`. -/
def recalculate_atr_bands (df : List Candle) (k : ℚ) : List Candle :=
  df.map (fun c => { c with
    atr_upper_entry := c.ema20 + c.atr * k
    atr_lower_entry := c.ema20 - c.atr * k
    atr_upper_3 := c.ema20 + c.atr * 3
    atr_lower_3 := c.ema20 - c.atr * 3 })

/-- The detector configuration `analyze_atr_level` constructs:
`SetupDetector(min_candles_away=BASE_PARAMS['min_candles_away'])` with
`min_candles_away = 0` and the constructor defaults
`use_di_filter=False, di_spread_max=20`. -/
def sweepDetectorConfig : DetectorConfig :=
  { min_candles_away := 0, use_di_filter := false, di_spread_max := 20 }

/-- The all-zero metrics rows returned by `analyze_atr_level`'s two early
returns (no setups at all / no closed trades); note `profit_factor = 0`,
not infinity, in these branches. -/
def zeroMetrics (k : ℚ) (total : ℕ) : SweepMetrics :=
  { atr_level := k, total_trades := total, win_trades := 0, loss_trades := 0,
    win_rate := 0, avg_win_pips := 0, avg_loss_pips := 0, total_pips := 0,
    expectancy := 0, profit_factor := (0 : ℚ), trades_per_year := 0,
    max_drawdown := 0 }

/-- Sum of `result_pips` over a setup list. -/
def sumPips (l : List Setup) : ℚ :=
  (l.map (fun s => s.result_pips)).sum

/-- `min(s['result_pips'] for s in losses)` on a nonempty list. -/
def minPips (s : Setup) (rest : List Setup) : ℚ :=
  (rest.map (fun x => x.result_pips)).foldl min s.result_pips

/-- `closed_trades`: the setups whose outcome is `WIN` or `LOSS`. -/
def closedOf (l : List Setup) : List Setup :=
  l.filter (fun s => s.outcome = .WIN ∨ s.outcome = .LOSS)

/-- `wins`: the setups whose outcome is `WIN`. -/
def winsOf (l : List Setup) : List Setup :=
  l.filter (fun s => s.outcome = .WIN)

/-- `losses`: the setups whose outcome is `LOSS`. -/
def lossesOf (l : List Setup) : List Setup :=
  l.filter (fun s => s.outcome = .LOSS)

/-- The setup collection one sweep iteration works on: bands recomputed
for the multiplier `k`, then the full detection pipeline over the
analysis window. -/
def sweepSetups (df : List Candle) (k : ℚ) (sd ed : ℤ) : List Setup :=
  detect_all_setups sweepDetectorConfig (recalculate_atr_bands df k)
    (some sd) (some ed)

/-- The main branch of `analyze_atr_level` (at least one closed trade):
all derived metrics from the win/loss buckets. -/
def closedMetrics (df : List Candle) (k : ℚ) (sd ed : ℤ) : SweepMetrics :=
  let setups := sweepSetups df k sd ed
  let closed := closedOf setups
  let wins := winsOf setups
  let losses := lossesOf setups
  let total_trades := closed.length
  let win_trades := wins.length
  let loss_trades := losses.length
  let win_rate :=
    if 0 < total_trades then ((win_trades : ℚ) / total_trades) * 100 else 0
  let total_pips := sumPips closed
  let win_pips_total := sumPips wins
  let loss_pips_total := sumPips losses
  let avg_win_pips :=
    if 0 < win_trades then win_pips_total / win_trades else 0
  let avg_loss_pips :=
    if 0 < loss_trades then |loss_pips_total| / loss_trades else 0
  let expectancy :=
    if 0 < total_trades then total_pips / total_trades else 0
  let profit_factor : WithTop ℚ :=
    if loss_pips_total ≠ 0 then
      ((win_pips_total / |loss_pips_total| : ℚ) : WithTop ℚ)
    else ⊤
  let years : ℚ := ((ed - sd : ℤ) : ℚ) / (365.25 : ℚ)
  let trades_per_year :=
    if 0 < years then (total_trades : ℚ) / years else 0
  let max_drawdown := match losses with
    | [] => 0
    | s :: rest => minPips s rest
  { atr_level := k, total_trades := total_trades,
    win_trades := win_trades, loss_trades := loss_trades,
    win_rate := win_rate, avg_win_pips := avg_win_pips,
    avg_loss_pips := avg_loss_pips, total_pips := total_pips,
    expectancy := expectancy, profit_factor := profit_factor,
    trades_per_year := trades_per_year, max_drawdown := max_drawdown }

/-- `analyze_atr_level`: recompute the bands for the multiplier `k`, run
the detector over the window `[sd, ed]` (timestamps and window bounds are
day numbers, so `(end_date - start_date).days` is `ed - sd`), and derive
the metrics row; the two early returns yield all-zero rows. -/
def analyze_atr_level (df : List Candle) (k : ℚ) (sd ed : ℤ) :
    SweepMetrics :=
  if (sweepSetups df k sd ed).isEmpty then zeroMetrics k 0
  else if (closedOf (sweepSetups df k sd ed)).isEmpty then
    zeroMetrics k (sweepSetups df k sd ed).length
  else closedMetrics df k sd ed

/-- One row of the ranked sweep table (a `df_results` row after the
`ranking` column is added). -/
structure RankedRow where
  metrics : SweepMetrics
  ranking : ℕ
deriving DecidableEq

/-- The descending-expectancy order used by
`df_results.sort_values('expectancy', ascending=False)`. -/
def expRel (a b : SweepMetrics) : Prop :=
  b.expectancy ≤ a.expectancy

instance expRel.decidable : DecidableRel expRel :=
  fun a b => inferInstanceAs (Decidable (b.expectancy ≤ a.expectancy))

instance expRel.total : IsTotal SweepMetrics expRel :=
  ⟨fun a b => le_total b.expectancy a.expectancy⟩

instance expRel.trans : IsTrans SweepMetrics expRel :=
  ⟨fun _ _ _ h1 h2 => le_trans h2 h1⟩

/-- `df_results['ranking'] = range(1, len(df_results) + 1)`: attach
consecutive rank numbers starting at `n`. -/
def addRanks : ℕ → List SweepMetrics → List RankedRow
  | _, [] => []
  | n, m :: rest => { metrics := m, ranking := n } :: addRanks (n + 1) rest

/-- `generate_summary_table`: sort the metric rows by descending
expectancy and number them 1..n (the source's `sort_values` is any
correct comparison sort; a stable structural sort embeds it). -/
def generate_summary_table (results : List SweepMetrics) : List RankedRow :=
  addRanks 1 (results.insertionSort expRel)

/-- The sweep loop of `optimize_atr_levels`: each multiplier's analysis is
a call that may raise (modelled as an `Except`-valued function); failures
are skipped (`except ... continue`), successes collected in order; with no
successes the sweep returns `None`, otherwise the ranked table. -/
def optimize_atr_levels (analyze : ℚ → Except String SweepMetrics)
    (atr_range : List ℚ) : Option (List RankedRow) :=
  let results := atr_range.filterMap (fun lvl => (analyze lvl).toOption)
  if results.isEmpty then none
  else some (generate_summary_table results)

/-! ### Concrete bar series used as witnesses and counterexamples

`baseBar` carries the band values that `recalculate_atr_bands` would
produce from `ema20 = 1.1`, `atr = 0.001`, entry multiplier `2.0` and
stop multiplier `3.0`, so the same data works for the raw detector and
for the sweep. -/

/-- A bar with `ema20 = 1.1`, `atr = 0.001` and the matching 2.0/3.0 ATR
bands; only timestamp, low and high (and optionally `ema20`) vary. -/
def baseBar (dt : ℤ) (lo hi em : ℚ) : Candle :=
  { datetime := dt, low := lo, high := hi, ema20 := em, atr := 0.001,
    atr_lower_entry := 1.098, atr_upper_entry := 1.102,
    atr_lower_3 := 1.097, atr_upper_3 := 1.103,
    adx := 20, plus_di := 10, minus_di := 5, rsi := 50 }

/-- Three bars: a touch at bar 0, a `LONG` band breach at bar 1, and an
EMA re-touch (take-profit) at bar 2. -/
def exampleBars : List Candle :=
  [baseBar 0 1.099 1.101 1.1,
   baseBar 1 1.0975 1.0985 1.1,
   baseBar 2 1.0985 1.1005 1.1]

/-- The single setup the pipeline produces on `exampleBars`:
a `LONG` entered at bar 1 at `1.098`, won at bar 2 at the EMA `1.1`. -/
def exampleSetup : Setup :=
  { touch_date := 0, entry_date := 1, exit_date := some 2,
    direction := .LONG, entry_price := 1.098, sl_price := 1.097,
    tp_price_ref := 1.1, exit_price := some 1.1, sl_pips := 10,
    tp_pips_estimated := 20, result_pips := 20, rr_ratio_estimated := 2,
    rr_ratio_real := some 2, outcome := .WIN, candles_away := 1,
    candles_held := 1, adx := 20, plus_di := 10, minus_di := 5,
    rsi := 50, atr := 0.001 }

/-- Like `exampleBars` but bar 2 hits the stop (`low = 1.0965 ≤ 1.097`)
instead of touching the EMA: the pipeline produces one losing trade. -/
def lossBars : List Candle :=
  [baseBar 0 1.099 1.101 1.1,
   baseBar 1 1.0975 1.0985 1.1,
   baseBar 2 1.0965 1.0975 1.1]

/-- Drift validation demanding two clear bars. -/
def driftConfig : DetectorConfig :=
  { min_candles_away := 2, use_di_filter := false, di_spread_max := 20 }

/-- A touch at bar 0 followed by a single non-touching, entry-qualifying
bar; the series then ends, one bar short of `driftConfig`'s threshold. -/
def driftBars : List Candle :=
  [baseBar 0 1.099 1.101 1.1,
   baseBar 1 1.0975 1.0985 1.1]

/-- Bars for the realized reward:risk rounding check: stop distance
`0.0003` at the entry bar, and a win of exactly `4` pips at bar 2, so the
exact ratio is `4/3` but the stored field is its 2-decimal rounding. -/
def rrBars : List Candle :=
  [baseBar 0 1.099 1.101 1.1,
   { baseBar 1 1.0978 1.0985 1.1 with atr_lower_3 := 1.0977 },
   baseBar 2 1.098 1.099 1.0984]

/-- A bar satisfying both the `LONG` stop-loss condition for
`sl_price = 1.095` (`low = 1.09 ≤ 1.095`) and the EMA-touch take-profit
condition (`1.09 ≤ 1.1 ≤ 1.11`). -/
def bothBar : Candle := baseBar 7 1.09 1.11 1.1

/-- Single-bar series whose only bar is `bothBar`. -/
def bothBars : List Candle := [bothBar]

/-- Directional filter enabled with `spreadMax = 15`. -/
def diConfig : DetectorConfig :=
  { min_candles_away := 0, use_di_filter := true, di_spread_max := 15 }

/-- A band-breaching candidate bar with DI spread `|30 - 10| = 20 ≥ 15`:
skipped by the directional filter. -/
def diBar : Candle :=
  { baseBar 5 1.0975 1.0985 1.1 with plus_di := 30, minus_di := 10 }

/-- The next bar, with DI spread `|12 - 10| = 2 < 15` and a band breach:
a qualifying entry bar. -/
def diQualBar : Candle :=
  { baseBar 6 1.0975 1.0985 1.1 with plus_di := 12, minus_di := 10 }

/-- A sweep-metrics row with expectancy 1. -/
def rowA : SweepMetrics := { zeroMetrics 1.8 0 with expectancy := 1 }

/-- A sweep-metrics row with expectancy 5. -/
def rowB : SweepMetrics := { zeroMetrics 2.0 0 with expectancy := 5 }

/-- A per-multiplier analysis that succeeds only at multiplier 2. -/
def sweepAnalyze : ℚ → Except String SweepMetrics :=
  fun lvl => if lvl = 2 then .ok rowB else .error "fail"

/-! ### Helper lemmas -/

lemma ne_nil_of_isEmpty_false {α : Type} {l : List α}
    (h : l.isEmpty = false) : l ≠ [] := by
  cases l <;> simp_all

lemma simulateGo_cons_skip (dir : Direction) (ep sl : ℚ) (e tot : ℕ)
    (c : Candle) (rest : List Candle) (i : ℕ)
    (h1 : sl_hit dir sl c = false) (h2 : ema_touch c = false) :
    simulateGo dir ep sl e tot (c :: rest) i =
      simulateGo dir ep sl e tot rest (i + 1) := by
  simp [simulateGo, h1, h2]

lemma simulateGo_first_sl (dir : Direction) (ep sl : ℚ) (e tot : ℕ) :
    ∀ (n : ℕ) (l : List Candle) (i : ℕ) (c : Candle),
      l[n]? = some c → sl_hit dir sl c = true →
      (∀ k ck, k < n → l[k]? = some ck →
        sl_hit dir sl ck = false ∧ ema_touch ck = false) →
      (simulateGo dir ep sl e tot l i).outcome = .LOSS ∧
      (simulateGo dir ep sl e tot l i).exit_price = some sl ∧
      (simulateGo dir ep sl e tot l i).candles_held =
        ((i + n : ℕ) : ℤ) - (e : ℤ) := by
  intro n
  induction n with
  | zero =>
    intro l i c hc hsl _
    cases l with
    | nil => simp at hc
    | cons c0 rest =>
      rw [List.getElem?_cons_zero] at hc
      injection hc with hc
      subst hc
      simp [simulateGo, hsl]
  | succ n ih =>
    intro l i c hc hsl hpre
    cases l with
    | nil => simp at hc
    | cons c0 rest =>
      have h0 := hpre 0 c0 (Nat.succ_pos n) (by simp)
      rw [simulateGo_cons_skip dir ep sl e tot c0 rest i h0.1 h0.2]
      have h := ih rest (i + 1) c (by simpa using hc) hsl
        (fun k ck hk hck => hpre (k + 1) ck (by omega) (by simpa using hck))
      rwa [show i + 1 + n = i + (n + 1) from by omega] at h

/-! ### C2: stop-loss precedence over take-profit within a bar -/

/-- C2: in `simulate_trade_outcome`, at the first bar at or after the
entry where any exit condition fires, if both the stop-loss condition and
the EMA-touch take-profit condition hold simultaneously, the trade is
scored `LOSS` with exit price equal to the stop price (the stop-loss test
runs first within each bar). -/
theorem c2_theorem (df : List Candle) (entry j : ℕ) (dir : Direction)
    (ep sl tp : ℚ) (c : Candle)
    (hj : df[j]? = some c) (hentry : entry ≤ j)
    (hsl : sl_hit dir sl c = true) (htp : ema_touch c = true)
    (hfirst : ∀ k ck, entry ≤ k → k < j → df[k]? = some ck →
      sl_hit dir sl ck = false ∧ ema_touch ck = false) :
    (simulate_trade_outcome df entry dir ep sl tp).outcome = .LOSS ∧
    (simulate_trade_outcome df entry dir ep sl tp).exit_price = some sl ∧
    (simulate_trade_outcome df entry dir ep sl tp).candles_held =
      (j : ℤ) - (entry : ℤ) := by
  unfold simulate_trade_outcome
  have hdrop : (df.drop entry)[j - entry]? = some c := by
    rw [List.getElem?_drop, show entry + (j - entry) = j from by omega]
    exact hj
  have h := simulateGo_first_sl dir ep sl entry df.length (j - entry)
    (df.drop entry) entry c hdrop hsl ?_
  · rwa [show entry + (j - entry) = j from by omega] at h
  · intro k ck hk hck
    rw [List.getElem?_drop] at hck
    exact hfirst (entry + k) ck (by omega) (by omega) hck

/-- C2 witness: on `bothBars`, whose entry bar satisfies both exit
conditions for `sl_price = 1.095`, the simulation scores a `LOSS` at the
stop price. -/
theorem c2_witness :
    sl_hit Direction.LONG 1.095 bothBar = true ∧
    ema_touch bothBar = true ∧
    (simulate_trade_outcome bothBars 0 Direction.LONG 1 1.095 1.1).outcome
      = Outcome.LOSS ∧
    (simulate_trade_outcome bothBars 0 Direction.LONG 1 1.095 1.1).exit_price
      = some 1.095 ∧
    (simulate_trade_outcome bothBars 0 Direction.LONG 1 1.095 1.1).candles_held
      = 0 := by
  refine ⟨by with_unfolding_all rfl, by with_unfolding_all rfl, ?_⟩
  have h := c2_theorem bothBars 0 0 Direction.LONG 1 1.095 1.1 bothBar
    (by with_unfolding_all rfl) le_rfl
    (by with_unfolding_all rfl) (by with_unfolding_all rfl)
    (fun k ck _ hk _ => absurd hk (Nat.not_lt_zero k))
  simpa using h

/-! ### C6: the forward scan starts at the entry bar itself -/

/-- C6: if the entry bar already satisfies the stop-loss or take-profit
condition, `simulate_trade_outcome` exits at the entry bar with
`candles_held = 0`. -/
theorem c6_theorem (df : List Candle) (entry : ℕ) (dir : Direction)
    (ep sl tp : ℚ) (c : Candle)
    (hc : df[entry]? = some c)
    (h : sl_hit dir sl c = true ∨ ema_touch c = true) :
    (simulate_trade_outcome df entry dir ep sl tp).candles_held = 0 ∧
    (simulate_trade_outcome df entry dir ep sl tp).outcome ≠ .OPEN ∧
    (simulate_trade_outcome df entry dir ep sl tp).exit_date
      = some c.datetime := by
  obtain ⟨hlt, hel⟩ := List.getElem?_eq_some.1 hc
  unfold simulate_trade_outcome
  rw [List.drop_eq_getElem_cons hlt, hel]
  by_cases hsl : sl_hit dir sl c = true
  · simp [simulateGo, hsl]
  · have htp : ema_touch c = true := h.resolve_left hsl
    simp [simulateGo, hsl, htp]

/-- C6 witness: on `bothBars` the trade closes on its entry bar. -/
theorem c6_witness :
    bothBars[0]? = some bothBar ∧
    sl_hit Direction.LONG 1.095 bothBar = true ∧
    (simulate_trade_outcome bothBars 0 Direction.LONG 1 1.095 1.1).candles_held
      = 0 ∧
    (simulate_trade_outcome bothBars 0 Direction.LONG 1 1.095 1.1).outcome
      ≠ Outcome.OPEN ∧
    (simulate_trade_outcome bothBars 0 Direction.LONG 1 1.095 1.1).exit_date
      = some 7 := by
  refine ⟨by with_unfolding_all rfl, by with_unfolding_all rfl, ?_⟩
  have h := c6_theorem bothBars 0 Direction.LONG 1 1.095 1.1 bothBar
    (by with_unfolding_all rfl) (Or.inl (by with_unfolding_all rfl))
  simpa using h

/-! ### C1: a touch cut short by the end of the series -/

/-- C1 counterexample: with `min_candles_away = 2`, a touch at bar 0 of
`driftBars` is followed by one clear bar and then the series ends;
`verify_price_moved_away` does return `(true, 1)`, but the pipeline's
drift gate (`detect_all_setups` lines 204-207) rejects the touch because
`candles_away < min_candles_away`, no entry scan happens, and no setup is
produced — even though bar 1 is a qualifying `LONG` entry bar. -/
theorem c1_counterexample :
    ema_touch (baseBar 0 1.099 1.101 1.1) = true ∧
    verify_price_moved_away driftConfig driftBars 0 = (true, 1) ∧
    drift_gate driftConfig driftBars 0 = false ∧
    entry_cond Direction.LONG (baseBar 1 1.0975 1.0985 1.1) = true ∧
    detect_all_setups driftConfig driftBars none none = [] := by
  refine ⟨?_, ?_, ?_, ?_, ?_⟩ <;> with_unfolding_all rfl

/-- C1 (amended): when drift validation is enabled and
`verify_price_moved_away` reports fewer than `min_candles_away` observed
candles (in particular when the series ended first), `detect_all_setups`
skips the touch: the drift gate fails and the touch contributes no
setups, regardless of the validity flag. -/
theorem c1_theorem (cfg : DetectorConfig) (df : List Candle)
    (t : ℕ) (v : Bool) (ca : ℕ) (sd ed : Option ℤ) (td : ℤ)
    (hmin : 0 < cfg.min_candles_away)
    (hver : verify_price_moved_away cfg df t = (v, ca))
    (hca : ca < cfg.min_candles_away)
    (hfind : df.findIdx? (fun c => c.datetime == td) = some t) :
    drift_gate cfg df t = false ∧
    processTouchDate cfg df sd ed td = [] := by
  have hgate : drift_gate cfg df t = false := by
    unfold drift_gate
    rw [if_pos hmin, hver]
    simp [Nat.not_le.2 hca]
  refine ⟨hgate, ?_⟩
  simp [processTouchDate, hfind, hgate]

/-- C1 witness: the amended behavior on the concrete `driftBars`. -/
theorem c1_witness :
    0 < driftConfig.min_candles_away ∧
    verify_price_moved_away driftConfig driftBars 0 = (true, 1) ∧
    1 < driftConfig.min_candles_away ∧
    drift_gate driftConfig driftBars 0 = false ∧
    processTouchDate driftConfig driftBars none none 0 = [] := by
  refine ⟨by decide, by with_unfolding_all rfl, by decide, ?_⟩
  exact c1_theorem driftConfig driftBars 0 true 1 none none 0 (by decide)
    (by with_unfolding_all rfl) (by decide) (by with_unfolding_all rfl)

/-! ### C5: the directional filter skips bars without cancelling -/

lemma entryScanGo_ge (cfg : DetectorConfig) (dir : Direction) :
    ∀ (l : List Candle) (i j : ℕ),
      entryScanGo cfg dir l i = some j → i ≤ j := by
  intro l
  induction l with
  | nil => intro i j h; simp [entryScanGo] at h
  | cons c rest ih =>
    intro i j h
    unfold entryScanGo at h
    by_cases h1 : ema_touch c = true
    · simp [h1] at h
    · rw [if_neg h1] at h
      by_cases h2 : check_di_spread_filter cfg c = true
      · rw [if_neg (by simp [h2])] at h
        by_cases h3 : entry_cond dir c = true
        · rw [if_pos h3] at h
          injection h with h
          omega
        · rw [if_neg h3] at h
          exact le_trans (Nat.le_succ i) (ih (i + 1) j h)
      · rw [if_pos (by simp [Bool.not_eq_true] at h2 ⊢; exact h2)] at h
        exact le_trans (Nat.le_succ i) (ih (i + 1) j h)

/-- C5: in the entry scan, a bar that does not re-touch the EMA but fails
the DI-spread filter (`|plus_di − minus_di| ≥ spreadMax` with the filter
enabled) is skipped without cancelling the search — the scan continues
exactly as if started at the next bar — and the returned entry index, if
any, is a strictly later bar. -/
theorem c5_theorem (cfg : DetectorConfig) (dir : Direction) (c : Candle)
    (rest : List Candle) (i j : ℕ)
    (hfil : cfg.use_di_filter = true)
    (htouch : ema_touch c = false)
    (hspread : cfg.di_spread_max ≤ |c.plus_di - c.minus_di|) :
    entryScanGo cfg dir (c :: rest) i = entryScanGo cfg dir rest (i + 1) ∧
    (entryScanGo cfg dir (c :: rest) i = some j → i + 1 ≤ j) := by
  have hchk : check_di_spread_filter cfg c = false := by
    unfold check_di_spread_filter
    rw [if_pos hfil]
    simpa using not_lt.2 hspread
  have hskip : entryScanGo cfg dir (c :: rest) i
      = entryScanGo cfg dir rest (i + 1) := by
    simp [entryScanGo, htouch, hchk]
  exact ⟨hskip, fun h => entryScanGo_ge cfg dir rest (i + 1) j
    (hskip ▸ h)⟩

/-- C5 witness: with the filter at `spreadMax = 15`, the spread-20 bar
`diBar` is skipped and the next qualifying bar (index 6) becomes the
entry. -/
theorem c5_witness :
    diConfig.use_di_filter = true ∧
    ema_touch diBar = false ∧
    diConfig.di_spread_max ≤ |diBar.plus_di - diBar.minus_di| ∧
    (entryScanGo diConfig Direction.LONG [diBar, diQualBar] 5
      = entryScanGo diConfig Direction.LONG [diQualBar] 6) ∧
    entryScanGo diConfig Direction.LONG [diBar, diQualBar] 5 = some 6 ∧
    5 + 1 ≤ 6 := by
  have h := c5_theorem diConfig Direction.LONG diBar [diQualBar] 5 6
    (by decide) (by with_unfolding_all rfl)
    (by with_unfolding_all rfl)
  exact ⟨by decide, by with_unfolding_all rfl, by with_unfolding_all rfl,
    h.1, by with_unfolding_all rfl, h.2 (by with_unfolding_all rfl)⟩

/-! ### C3: the stored realized reward:risk ratio -/

/-- C3 counterexample: on `rrBars` the pipeline's builder produces a
closed (`WIN`) setup with `realizedPips = 4` and stop distance
`|1.098 − 1.0977| = 0.0003`, so the claimed formula gives
`4 / 3`; but the stored `rr_ratio_real` field is the 2-decimal rounding
`1.33 ≠ 4/3` (source line 166 stores `round(rr_ratio_real, 2)`). -/
theorem c3_counterexample :
    (create_setup rrBars 0 1 Direction.LONG).map
        (fun s => (s.outcome, s.result_pips, s.rr_ratio_real))
      = some (Outcome.WIN, 4, some (133/100)) ∧
    |(4 : ℚ)| / (|(1.098 : ℚ) - 1.0977| * 10000) = 4/3 ∧
    some (133/100 : ℚ) ≠ some (4/3 : ℚ) := by
  refine ⟨by with_unfolding_all rfl, by with_unfolding_all rfl, ?_⟩
  intro h
  injection h with h
  norm_num at h

/-- C3 (amended): for every Setup built by `create_setup`, the stored
`rr_ratio_real` equals `|realizedPips| / (stopDistance × pipFactor)`
*rounded to 2 decimal places* whenever the outcome is `WIN` or `LOSS`
and the unrounded ratio is nonzero; it is `none` whenever the outcome is
`OPEN`, and also `none` when the unrounded ratio is zero (Python
truthiness in `round(rr_ratio_real, 2) if rr_ratio_real else None`). -/
theorem c3_theorem (df : List Candle) (t e : ℕ) (dir : Direction)
    (s : Setup) (ec : Candle)
    (hc : create_setup df t e dir = some s)
    (hec : df[e]? = some ec) :
    s.outcome = (tradeOf df e dir ec).outcome ∧
    s.result_pips = (tradeOf df e dir ec).pips ∧
    (((tradeOf df e dir ec).outcome = .WIN ∨
        (tradeOf df e dir ec).outcome = .LOSS) →
      realizedRatio df e dir ec ≠ 0 →
      s.rr_ratio_real = some (roundTo 2 (realizedRatio df e dir ec))) ∧
    ((tradeOf df e dir ec).outcome = .OPEN → s.rr_ratio_real = none) ∧
    (((tradeOf df e dir ec).outcome = .WIN ∨
        (tradeOf df e dir ec).outcome = .LOSS) →
      realizedRatio df e dir ec = 0 → s.rr_ratio_real = none) := by
  unfold create_setup at hc
  rw [hec] at hc
  cases htc : df[t]? with
  | none => rw [htc] at hc; exact absurd hc (by simp)
  | some tc =>
    rw [htc] at hc
    injection hc with hc
    subst hc
    refine ⟨rfl, rfl, ?_, ?_, ?_⟩
    · intro hclosed hne
      simp only [if_pos hclosed]
      rw [if_neg hne]
    · intro hopen
      have : ¬((tradeOf df e dir ec).outcome = .WIN ∨
          (tradeOf df e dir ec).outcome = .LOSS) := by
        rw [hopen]; rintro (h | h) <;> exact absurd h (by simp)
      simp only [if_neg this]
    · intro hclosed hzero
      simp only [if_pos hclosed]
      rw [if_pos hzero]

/-- C3 witness: the amended statement evaluated on `exampleBars`, whose
winning trade has unrounded ratio `2` stored as `some 2`. -/
theorem c3_witness :
    create_setup exampleBars 0 1 Direction.LONG = some exampleSetup ∧
    (tradeOf exampleBars 1 Direction.LONG (baseBar 1 1.0975 1.0985 1.1)).outcome
      = Outcome.WIN ∧
    realizedRatio exampleBars 1 Direction.LONG (baseBar 1 1.0975 1.0985 1.1)
      = 2 ∧
    exampleSetup.rr_ratio_real
      = some (roundTo 2 (realizedRatio exampleBars 1 Direction.LONG
          (baseBar 1 1.0975 1.0985 1.1))) := by
  have hratio : realizedRatio exampleBars 1 Direction.LONG
      (baseBar 1 1.0975 1.0985 1.1) = 2 := by with_unfolding_all rfl
  refine ⟨by with_unfolding_all rfl, by with_unfolding_all rfl, hratio, ?_⟩
  exact (c3_theorem exampleBars 0 1 Direction.LONG exampleSetup
      (baseBar 1 1.0975 1.0985 1.1)
      (by with_unfolding_all rfl) (by with_unfolding_all rfl)).2.2.1
    (Or.inl (by with_unfolding_all rfl))
    (ne_of_eq_of_ne hratio (by norm_num))

/-! ### C4: the profit factor and its degenerate sentinels -/

/-- C4 counterexample: with no setups at all (in particular no losing
trades), `analyze_atr_level` reports `profit_factor = 0`, not infinity:
its early returns use an all-zero row. -/
theorem c4_counterexample :
    (analyze_atr_level [] 2 0 365).loss_trades = 0 ∧
    (analyze_atr_level [] 2 0 365).profit_factor = ((0 : ℚ) : WithTop ℚ) ∧
    ((0 : ℚ) : WithTop ℚ) ≠ (⊤ : WithTop ℚ) := by
  refine ⟨by with_unfolding_all rfl, by with_unfolding_all rfl, ?_⟩
  exact WithTop.coe_ne_top

/-- C4 (amended): `analyze_atr_level`'s profit factor equals
`sum(winPips) / |sum(lossPips)|` when closed trades exist and the losing
pips sum is nonzero, equals infinity when closed trades exist and the
losing pips sum is zero, and equals `0` — not infinity — in the
degenerate no-setups and no-closed-trades branches. -/
theorem c4_theorem (df : List Candle) (k : ℚ) (sd ed : ℤ) :
    ((sweepSetups df k sd ed = [] ∨ closedOf (sweepSetups df k sd ed) = []) →
      (analyze_atr_level df k sd ed).profit_factor = ((0 : ℚ) : WithTop ℚ)) ∧
    (closedOf (sweepSetups df k sd ed) ≠ [] →
      sumPips (lossesOf (sweepSetups df k sd ed)) = 0 →
      (analyze_atr_level df k sd ed).profit_factor = (⊤ : WithTop ℚ)) ∧
    (closedOf (sweepSetups df k sd ed) ≠ [] →
      sumPips (lossesOf (sweepSetups df k sd ed)) ≠ 0 →
      (analyze_atr_level df k sd ed).profit_factor =
        ((sumPips (winsOf (sweepSetups df k sd ed)) /
            |sumPips (lossesOf (sweepSetups df k sd ed))| : ℚ) :
          WithTop ℚ)) := by
  have hmain : closedOf (sweepSetups df k sd ed) ≠ [] →
      analyze_atr_level df k sd ed = closedMetrics df k sd ed := by
    intro hne
    have hS : (sweepSetups df k sd ed).isEmpty = false := by
      cases hs : sweepSetups df k sd ed with
      | nil => exact absurd (by rw [closedOf, hs]; rfl) hne
      | cons a l => rfl
    have hC : (closedOf (sweepSetups df k sd ed)).isEmpty = false := by
      cases hc : closedOf (sweepSetups df k sd ed) with
      | nil => exact absurd hc hne
      | cons a l => rfl
    unfold analyze_atr_level
    rw [hS, hC]
    rfl
  refine ⟨?_, ?_, ?_⟩
  · intro h
    have hclosed : closedOf (sweepSetups df k sd ed) = [] := by
      rcases h with h | h
      · rw [closedOf, h]; rfl
      · exact h
    unfold analyze_atr_level
    by_cases hS : (sweepSetups df k sd ed).isEmpty
    · rw [if_pos hS]; rfl
    · rw [if_neg hS, if_pos (by rw [hclosed]; rfl)]; rfl
  · intro hne hzero
    rw [hmain hne]
    show (if sumPips (lossesOf (sweepSetups df k sd ed)) ≠ 0 then _ else
      (⊤ : WithTop ℚ)) = (⊤ : WithTop ℚ)
    rw [if_neg (by simpa using hzero)]
  · intro hne hnz
    rw [hmain hne]
    show (if sumPips (lossesOf (sweepSetups df k sd ed)) ≠ 0 then
        ((sumPips (winsOf (sweepSetups df k sd ed)) /
            |sumPips (lossesOf (sweepSetups df k sd ed))| : ℚ) :
          WithTop ℚ)
      else (⊤ : WithTop ℚ)) = _
    rw [if_pos hnz]

/-- C4 witness: on `lossBars` (one closed losing trade, loss sum `−10`)
the profit factor is the finite quotient of the formula. -/
theorem c4_witness :
    closedOf (sweepSetups lossBars 2 0 2) ≠ [] ∧
    sumPips (lossesOf (sweepSetups lossBars 2 0 2)) = -10 ∧
    (analyze_atr_level lossBars 2 0 2).profit_factor =
      ((sumPips (winsOf (sweepSetups lossBars 2 0 2)) /
          |sumPips (lossesOf (sweepSetups lossBars 2 0 2))| : ℚ) :
        WithTop ℚ) := by
  have hsum : sumPips (lossesOf (sweepSetups lossBars 2 0 2)) = -10 := by
    with_unfolding_all rfl
  have hne : closedOf (sweepSetups lossBars 2 0 2) ≠ [] :=
    ne_nil_of_isEmpty_false (by with_unfolding_all rfl)
  exact ⟨hne, hsum, (c4_theorem lossBars 2 0 2).2.2 hne
    (ne_of_eq_of_ne hsum (by norm_num))⟩

/-! ### C8: the ranked table is sorted by descending expectancy -/

lemma addRanks_getElem? (l : List SweepMetrics) :
    ∀ (n i : ℕ), (addRanks n l)[i]? =
      (l[i]?).map (fun m => { metrics := m, ranking := n + i }) := by
  induction l with
  | nil => intro n i; simp [addRanks]
  | cons m rest ih =>
    intro n i
    cases i with
    | zero => simp [addRanks]
    | succ i =>
      simp only [addRanks, List.getElem?_cons_succ, ih (n + 1) i]
      rw [show n + 1 + i = n + (i + 1) from by omega]

lemma addRanks_mem {r : RankedRow} :
    ∀ {l : List SweepMetrics} {n : ℕ}, r ∈ addRanks n l → r.metrics ∈ l := by
  intro l
  induction l with
  | nil => intro n h; simp [addRanks] at h
  | cons m rest ih =>
    intro n h
    simp only [addRanks] at h
    rcases List.mem_cons.1 h with h | h
    · rw [h]; exact List.mem_cons_self m rest
    · exact List.mem_cons_of_mem m (ih h)

lemma addRanks_pairwise {R : SweepMetrics → SweepMetrics → Prop} :
    ∀ (l : List SweepMetrics) (n : ℕ), l.Pairwise R →
      (addRanks n l).Pairwise (fun a b => R a.metrics b.metrics) := by
  intro l
  induction l with
  | nil => intro n _; exact List.Pairwise.nil
  | cons m rest ih =>
    intro n h
    rcases List.pairwise_cons.1 h with ⟨hhead, htail⟩
    exact List.pairwise_cons.2
      ⟨fun b hb => hhead b.metrics (addRanks_mem hb), ih (n + 1) htail⟩

/-- C8: `generate_summary_table` returns the rows sorted by descending
expectancy, rank numbers are consecutive from 1 following that order, and
the top row's expectancy is at least every other row's expectancy. -/
theorem c8_theorem (results : List SweepMetrics) :
    (generate_summary_table results).Pairwise
      (fun a b => b.metrics.expectancy ≤ a.metrics.expectancy) ∧
    (∀ i row, (generate_summary_table results)[i]? = some row →
      row.ranking = i + 1) ∧
    (∀ row0 row, (generate_summary_table results).head? = some row0 →
      row ∈ generate_summary_table results →
      row.metrics.expectancy ≤ row0.metrics.expectancy) := by
  have hsorted : (generate_summary_table results).Pairwise
      (fun a b => b.metrics.expectancy ≤ a.metrics.expectancy) := by
    have h := List.sorted_insertionSort expRel results
    exact addRanks_pairwise (R := expRel) _ 1 h
  refine ⟨hsorted, ?_, ?_⟩
  · intro i row h
    rw [generate_summary_table, addRanks_getElem?] at h
    cases hr : (results.insertionSort expRel)[i]? with
    | none => rw [hr] at h; exact absurd h (by simp)
    | some m =>
      rw [hr] at h
      simp only [Option.map_some'] at h
      injection h with h
      rw [← h]
      show 1 + i = i + 1
      omega
  · intro row0 row h0 hmem
    cases ht : generate_summary_table results with
    | nil => rw [ht] at h0; exact absurd h0 (by simp)
    | cons a tail =>
      rw [ht] at h0 hmem
      injection h0 with h0
      subst h0
      rw [ht] at hsorted
      rcases List.pairwise_cons.1 hsorted with ⟨hhead, _⟩
      rcases List.mem_cons.1 hmem with hmem | hmem
      · rw [hmem]
      · exact hhead row hmem

/-- C8 witness: ranking `[rowA, rowB]` (expectancies 1 and 5) puts `rowB`
first with rank 1 and `rowA` second with rank 2. -/
theorem c8_witness :
    generate_summary_table [rowA, rowB]
      = [{ metrics := rowB, ranking := 1 }, { metrics := rowA, ranking := 2 }] ∧
    (generate_summary_table [rowA, rowB]).Pairwise
      (fun a b => b.metrics.expectancy ≤ a.metrics.expectancy) ∧
    ({ metrics := rowB, ranking := 1 } : RankedRow).ranking = 0 + 1 ∧
    rowA.expectancy ≤ rowB.expectancy := by
  have htab : generate_summary_table [rowA, rowB]
      = [{ metrics := rowB, ranking := 1 }, { metrics := rowA, ranking := 2 }] := by
    with_unfolding_all rfl
  refine ⟨htab, (c8_theorem [rowA, rowB]).1, ?_, ?_⟩
  · exact (c8_theorem [rowA, rowB]).2.1 0 { metrics := rowB, ranking := 1 }
      (by rw [htab]; rfl)
  · exact (c8_theorem [rowA, rowB]).2.2 { metrics := rowB, ranking := 1 }
      { metrics := rowA, ranking := 2 } (by rw [htab]; rfl)
      (by rw [htab]; exact List.mem_cons_of_mem _ (List.mem_singleton.2 rfl))

/-! ### C9: sweep failures are isolated -/

lemma toOption_eq_none_iff (r : Except String SweepMetrics) :
    r.toOption = none ↔ ∀ m, r ≠ Except.ok m := by
  cases r with
  | ok m =>
    simp only [Except.toOption]
    constructor
    · intro h; exact absurd h (by simp)
    · intro h; exact absurd rfl (h m)
  | error e =>
    simp only [Except.toOption]
    constructor
    · intro _ m h; exact absurd h (by simp)
    · intro _; trivial

/-- C9: a multiplier whose analysis throws is excluded and the sweep
continues: `optimize_atr_levels` returns `none` exactly when every
multiplier's analysis failed, and every row of a returned table comes
from a multiplier whose analysis succeeded. -/
theorem c9_theorem (analyze : ℚ → Except String SweepMetrics)
    (atr_range : List ℚ) :
    (optimize_atr_levels analyze atr_range = none ↔
      ∀ lvl ∈ atr_range, ∀ m, analyze lvl ≠ Except.ok m) ∧
    (∀ table, optimize_atr_levels analyze atr_range = some table →
      ∀ row ∈ table, ∃ lvl ∈ atr_range,
        analyze lvl = Except.ok row.metrics) := by
  constructor
  · constructor
    · intro hnone lvl hlvl
      have hres : atr_range.filterMap (fun lvl => (analyze lvl).toOption)
          = [] := by
        cases hres : atr_range.filterMap (fun lvl => (analyze lvl).toOption)
          with
        | nil => rfl
        | cons a l =>
          rw [optimize_atr_levels, hres] at hnone
          exact absurd hnone (by simp)
      exact (toOption_eq_none_iff (analyze lvl)).1
        (List.filterMap_eq_nil_iff.1 hres lvl hlvl)
    · intro hall
      have hres : atr_range.filterMap (fun lvl => (analyze lvl).toOption)
          = [] :=
        List.filterMap_eq_nil_iff.2
          (fun lvl hlvl => (toOption_eq_none_iff (analyze lvl)).2
            (hall lvl hlvl))
      rw [optimize_atr_levels, hres]
      rfl
  · intro table htab row hrow
    cases hres : atr_range.filterMap (fun lvl => (analyze lvl).toOption) with
    | nil =>
      rw [optimize_atr_levels, hres] at htab
      exact absurd htab (by simp)
    | cons a l =>
      rw [optimize_atr_levels, hres] at htab
      simp only [List.isEmpty_cons, if_neg] at htab
      injection htab with htab
      subst htab
      have hm : row.metrics ∈ a :: l :=
        ((List.perm_insertionSort expRel (a :: l)).mem_iff).1
          (addRanks_mem hrow)
      rw [← hres] at hm
      rcases List.mem_filterMap.1 hm with ⟨lvl, hlvl, hsome⟩
      refine ⟨lvl, hlvl, ?_⟩
      cases ha : analyze lvl with
      | ok m =>
        rw [ha] at hsome
        simp only [Except.toOption] at hsome
        injection hsome with hsome
        rw [hsome]
      | error e =>
        rw [ha] at hsome
        exact absurd hsome (by simp [Except.toOption])

/-- C9 witness: with `sweepAnalyze` failing at multiplier 1 and
succeeding at multiplier 2, the sweep still returns a table, and its only
row comes from the successful multiplier. -/
theorem c9_witness :
    optimize_atr_levels sweepAnalyze [1, 2]
      = some [{ metrics := rowB, ranking := 1 }] ∧
    sweepAnalyze 1 = Except.error "fail" ∧
    (∃ lvl ∈ ([1, 2] : List ℚ),
      sweepAnalyze lvl
        = Except.ok ({ metrics := rowB, ranking := 1 } : RankedRow).metrics) := by
  have hopt : optimize_atr_levels sweepAnalyze [1, 2]
      = some [{ metrics := rowB, ranking := 1 }] := by
    with_unfolding_all rfl
  refine ⟨hopt, by with_unfolding_all rfl, ?_⟩
  exact (c9_theorem sweepAnalyze [1, 2]).2 _ hopt _ (List.mem_singleton.2 rfl)

/-! ### Decomposing membership in the pipeline's output -/

lemma mem_setupsForDir {cfg : DetectorConfig} {df : List Candle}
    {sd ed : Option ℤ} {t : ℕ} {dir : Direction} {s : Setup}
    (h : s ∈ setupsForDir cfg df sd ed t dir) :
    ∃ e ec, detect_entry_at_atr_level cfg df t dir = some e ∧
      df[e]? = some ec ∧ window_ok sd ed ec.datetime = true ∧
      create_setup df t e dir = some s := by
  unfold setupsForDir at h
  cases hent : detect_entry_at_atr_level cfg df t dir with
  | none => rw [hent] at h; exact absurd h (by simp)
  | some e =>
    rw [hent] at h
    dsimp only [] at h
    cases hec : df[e]? with
    | none => rw [hec] at h; exact absurd h (by simp)
    | some ec =>
      rw [hec] at h
      dsimp only [] at h
      by_cases hwin : window_ok sd ed ec.datetime = true
      · rw [if_pos hwin] at h
        cases hcre : create_setup df t e dir with
        | none => rw [hcre] at h; exact absurd h (by simp [Option.toList])
        | some s1 =>
          rw [hcre] at h
          have hss : s = s1 := by simpa [Option.toList] using h
          exact ⟨e, ec, rfl, hec, hwin, by rw [hcre, hss]⟩
      · rw [if_neg hwin] at h; exact absurd h (by simp)

lemma mem_processTouchDate {cfg : DetectorConfig} {df : List Candle}
    {sd ed : Option ℤ} {td : ℤ} {s : Setup}
    (h : s ∈ processTouchDate cfg df sd ed td) :
    ∃ t, df.findIdx? (fun c => c.datetime == td) = some t ∧
      drift_gate cfg df t = true ∧
      ∃ dir, s ∈ setupsForDir cfg df sd ed t dir := by
  unfold processTouchDate at h
  cases hf : df.findIdx? (fun c => c.datetime == td) with
  | none => rw [hf] at h; exact absurd h (by simp)
  | some t =>
    rw [hf] at h
    dsimp only [] at h
    by_cases hg : drift_gate cfg df t = true
    · rw [if_pos hg] at h
      rcases List.mem_append.1 h with h | h
      · exact ⟨t, rfl, hg, .LONG, h⟩
      · exact ⟨t, rfl, hg, .SHORT, h⟩
    · rw [if_neg hg] at h; exact absurd h (by simp)

lemma mem_detect_all {cfg : DetectorConfig} {df : List Candle}
    {sd ed : Option ℤ} {s : Setup}
    (h : s ∈ detect_all_setups cfg df sd ed) :
    ∃ td, s ∈ processTouchDate cfg df sd ed td := by
  simp only [detect_all_setups] at h
  rcases List.mem_flatten.1 h with ⟨l, hl, hsl⟩
  rcases List.mem_map.1 hl with ⟨td, _, rfl⟩
  exact ⟨td, hsl⟩

/-! ### C7: no intermediate EMA touch between touch and entry -/

lemma entryScanGo_no_touch (cfg : DetectorConfig) (dir : Direction) :
    ∀ (l : List Candle) (i j : ℕ), entryScanGo cfg dir l i = some j →
      ∀ k c, k ≤ j - i → l[k]? = some c → ema_touch c = false := by
  intro l
  induction l with
  | nil => intro i j h _ _ _ _; simp [entryScanGo] at h
  | cons c0 rest ih =>
    intro i j h k c hk hkc
    unfold entryScanGo at h
    by_cases h1 : ema_touch c0 = true
    · rw [if_pos h1] at h; exact absurd h (by simp)
    · rw [if_neg h1] at h
      have h1' : ema_touch c0 = false := by simpa using h1
      cases k with
      | zero =>
        rw [List.getElem?_cons_zero] at hkc
        injection hkc with hkc
        rw [← hkc]; exact h1'
      | succ k =>
        rw [List.getElem?_cons_succ] at hkc
        by_cases h2 : check_di_spread_filter cfg c0 = true
        · rw [if_neg (by simp [h2])] at h
          by_cases h3 : entry_cond dir c0 = true
          · rw [if_pos h3] at h
            injection h with h
            exact absurd hk (by omega)
          · rw [if_neg h3] at h
            exact ih (i + 1) j h k c (by omega) hkc
        · have h2' : check_di_spread_filter cfg c0 = false := by simpa using h2
          rw [if_pos (by rw [h2']; rfl)] at h
          exact ih (i + 1) j h k c (by omega) hkc

lemma verifyGo_no_touch (m : ℕ) :
    ∀ (l : List Candle) (ca n : ℕ), verifyGo m l ca = (true, n) →
      ∀ k c, k < n - ca → l[k]? = some c → ema_touch c = false := by
  intro l
  induction l with
  | nil => intro ca n _ k c _ hkc; simp at hkc
  | cons c0 rest ih =>
    intro ca n h k c hk hkc
    unfold verifyGo at h
    by_cases h1 : ema_touch c0 = true
    · rw [if_pos h1] at h
      exact absurd (congrArg Prod.fst h) (by simp)
    · rw [if_neg h1] at h
      have h1' : ema_touch c0 = false := by simpa using h1
      cases k with
      | zero =>
        rw [List.getElem?_cons_zero] at hkc
        injection hkc with hkc
        rw [← hkc]; exact h1'
      | succ k =>
        rw [List.getElem?_cons_succ] at hkc
        by_cases h2 : m ≤ ca + 1
        · rw [if_pos h2] at h
          have hn : ca + 1 = n := congrArg Prod.snd h
          exact absurd hk (by omega)
        · rw [if_neg h2] at h
          exact ih (ca + 1) n h k c (by omega) hkc

/-- C7: every Setup the pipeline emits comes from a touch index `t` and
entry index `e` with `t < e`, and no bar strictly between them satisfies
the EMA-touch condition — the bars below `t + min_candles_away` are
covered by the drift validation, the rest by the entry scan's
cancellation rule. -/
theorem c7_theorem (cfg : DetectorConfig) (df : List Candle)
    (sd ed : Option ℤ) (s : Setup)
    (hs : s ∈ detect_all_setups cfg df sd ed) :
    ∃ t e dir, create_setup df t e dir = some s ∧ t < e ∧
      ∀ k c, t < k → k < e → df[k]? = some c → ema_touch c = false := by
  rcases mem_detect_all hs with ⟨td, hp⟩
  rcases mem_processTouchDate hp with ⟨t, _, hgate, dir, hsd⟩
  rcases mem_setupsForDir hsd with ⟨e, ec, hent, hec, hwin, hcre⟩
  simp only [detect_entry_at_atr_level] at hent
  generalize hs1def : (if t + cfg.min_candles_away = t then
      t + cfg.min_candles_away + 1 else t + cfg.min_candles_away) = s1 at hent
  have hge : s1 ≤ e := entryScanGo_ge cfg dir _ s1 e hent
  have hcov := entryScanGo_no_touch cfg dir _ s1 e hent
  have ht1 : t + 1 ≤ s1 := by
    rw [← hs1def]; split_ifs with hif <;> omega
  refine ⟨t, e, dir, hcre, by omega, ?_⟩
  intro k c hk1 hk2 hkc
  by_cases hks : s1 ≤ k
  · have hk : (df.drop s1)[k - s1]? = some c := by
      rw [List.getElem?_drop, show s1 + (k - s1) = k from by omega]
      exact hkc
    exact hcov (k - s1) c (by omega) hk
  · push_neg at hks
    have hminpos : 0 < cfg.min_candles_away := by
      by_contra h0
      push_neg at h0
      have hz : cfg.min_candles_away = 0 := by omega
      rw [hz] at hs1def
      simp at hs1def
      omega
    have hs1v : s1 = t + cfg.min_candles_away := by
      rw [← hs1def, if_neg (by omega)]
    have hg := hgate
    unfold drift_gate at hg
    rw [if_pos hminpos] at hg
    cases hv : verify_price_moved_away cfg df t with
    | mk v n =>
      rw [hv] at hg
      simp at hg
      obtain ⟨hvt, hmn⟩ := hg
      rw [hvt] at hv
      unfold verify_price_moved_away at hv
      have hk : (df.drop (t + 1))[k - (t + 1)]? = some c := by
        rw [List.getElem?_drop, show t + 1 + (k - (t + 1)) = k from by omega]
        exact hkc
      exact verifyGo_no_touch cfg.min_candles_away (df.drop (t + 1)) 0 n hv
        (k - (t + 1)) c (by omega) hk

/-- C7 witness: the pipeline's output on `exampleBars` satisfies the
invariant. -/
theorem c7_witness :
    exampleSetup ∈ detect_all_setups sweepDetectorConfig exampleBars
      none none ∧
    ∃ t e dir, create_setup exampleBars t e dir = some exampleSetup ∧
      t < e ∧ ∀ k c, t < k → k < e → exampleBars[k]? = some c →
        ema_touch c = false := by
  have hmem : exampleSetup ∈ detect_all_setups sweepDetectorConfig
      exampleBars none none := by
    rw [show detect_all_setups sweepDetectorConfig exampleBars none none
      = [exampleSetup] from by with_unfolding_all rfl]
    exact List.mem_singleton.2 rfl
  exact ⟨hmem, c7_theorem sweepDetectorConfig exampleBars none none
    exampleSetup hmem⟩

/-! ### C10: emitted setups have their entry date inside the window -/

lemma create_setup_entry_date {df : List Candle} {t e : ℕ}
    {dir : Direction} {s : Setup} {ec : Candle}
    (hc : create_setup df t e dir = some s) (hec : df[e]? = some ec) :
    s.entry_date = ec.datetime := by
  unfold create_setup at hc
  rw [hec] at hc
  cases htc : df[t]? with
  | none => rw [htc] at hc; exact absurd hc (by simp)
  | some tc =>
    rw [htc] at hc
    injection hc with hc
    rw [← hc]

/-- C10: a Setup is appended to `detect_all_setups`' output only if its
entry bar's timestamp passes the window test against the given
`start_date` / `end_date` bounds (each bound checked only when
present). -/
theorem c10_theorem (cfg : DetectorConfig) (df : List Candle)
    (sd ed : Option ℤ) (s : Setup)
    (hs : s ∈ detect_all_setups cfg df sd ed) :
    window_ok sd ed s.entry_date = true := by
  rcases mem_detect_all hs with ⟨td, hp⟩
  rcases mem_processTouchDate hp with ⟨t, _, _, dir, hsd⟩
  rcases mem_setupsForDir hsd with ⟨e, ec, _, hec, hwin, hcre⟩
  rw [create_setup_entry_date hcre hec]
  exact hwin

/-- C10 witness: on `exampleBars` with window `[0, 1]` the single emitted
setup (entered at timestamp 1, exited at timestamp 2, past the window
end) has its entry date inside the window. -/
theorem c10_witness :
    exampleSetup ∈ detect_all_setups sweepDetectorConfig exampleBars
      (some 0) (some 1) ∧
    exampleSetup.exit_date = some 2 ∧
    window_ok (some 0) (some 1) exampleSetup.entry_date = true := by
  have hmem : exampleSetup ∈ detect_all_setups sweepDetectorConfig
      exampleBars (some 0) (some 1) := by
    rw [show detect_all_setups sweepDetectorConfig exampleBars
      (some 0) (some 1) = [exampleSetup] from by with_unfolding_all rfl]
    exact List.mem_singleton.2 rfl
  exact ⟨hmem, rfl, c10_theorem sweepDetectorConfig exampleBars
    (some 0) (some 1) exampleSetup hmem⟩

end AMRS
